import Mathlib

/-!
Shallow embedding of the session engine of `main.go` (terminal_typing_test).

The Go program keeps a global `State` (sample, typed cursor, ghost cursor,
typo list) plus the timing variables `currentCharTime` / `currentCharTimes`
that `main` threads through `handleInput` by pointer, and the globals
`hasPb` / `firstTypedChar`.  We gather all of these into one `Session`
record and translate each handler function of the source into a pure
function `Session → Session`.

Timestamps and durations are modelled as natural numbers of milliseconds:
the Go code only ever takes differences of monotone `time.Now()` readings
and converts them with `Milliseconds()`, so each keystroke event carries an
abstract `now : Nat` and `time.Since(t)` becomes `now - t`.
-/

namespace TypingTest

/-- Go `State` (main.go lines 22-27): the shared typing/replay model.
`typos` is a Go slice of `int` kept in append order; it is a list, not a
set, which matters because duplicates are representable. -/
structure State where
  sample : List Char
  typedIndex : Nat
  ghostIndex : Nat
  typos : List Nat
deriving Repr, DecidableEq

/-- The session-scoped mutable data of `main`: the shared `State` plus the
timing variables `currentCharTime` / `currentCharTimes` (main.go lines
71-74) and the globals `hasPb` (line 39) and `firstTypedChar` (line 78).
The scratch variable `timeDifChars` is always written before it is read and
is therefore not carried. -/
structure Session where
  st : State
  currentCharTime : Nat
  currentCharTimes : List Nat
  hasPb : Bool
  firstTypedChar : Bool
deriving Repr, DecidableEq

/-- Go `initializeState` (main.go lines 118-130) combined with the set-up of
`currentCharTimes` in `main` (lines 73-74): `hasPb` records whether the
saved sample carried a non-empty `CharTimes`, and when it did not,
`CharTimes` is replaced by `len(sample)` zeroes before `currentCharTimes`
copies it.  `now0` is the program-start clock reading. -/
def initSession (text : List Char) (savedCharTimes : List Nat) (now0 : Nat) : Session :=
  { st := { sample := text, typedIndex := 0, ghostIndex := 0, typos := [] },
    currentCharTime := now0,
    currentCharTimes := if savedCharTimes.isEmpty then List.replicate text.length 0 else savedCharTimes,
    hasPb := !savedCharTimes.isEmpty,
    firstTypedChar := true }

/-- The typo-removal idiom of `handleCorrectInput` (main.go lines 208-211):
`slices.Contains` / `slices.Index` / `slices.Delete(idx, idx+1)` removes the
first occurrence of `i` when present. -/
def deleteFirstTypo (typos : List Nat) (i : Nat) : List Nat :=
  if typos.contains i then typos.eraseIdx (typos.indexOf i) else typos

/-- Go `handleCorrectInput` (main.go lines 207-222).  The three `time.Now()`
calls of one invocation are modelled by the single reading `now`, so the
value recorded at position 0 is `now - now = 0`, matching the Go code's
"reset the checkpoint, then immediately measure" behaviour up to clock
granularity.  `List.set` is a no-op out of bounds where Go would panic;
in every state the program reaches, `currentCharTimes` has sample length. -/
def handleCorrectInput (now : Nat) (s : Session) : Session :=
  let typos := deleteFirstTypo s.st.typos s.st.typedIndex
  let cct := if s.st.typedIndex = 0 then now else s.currentCharTime
  if typos = [] then
    { s with st := { s.st with typos := typos, typedIndex := s.st.typedIndex + 1 },
             currentCharTime := now,
             currentCharTimes := s.currentCharTimes.set s.st.typedIndex (now - cct) }
  else
    { s with st := { s.st with typos := typos, typedIndex := s.st.typedIndex + 1 },
             currentCharTime := cct }

/-- Go `handleBackspace` (main.go lines 224-229). -/
def handleBackspace (s : Session) : Session :=
  if 0 < s.st.typedIndex then
    { s with st := { s.st with typedIndex := s.st.typedIndex - 1 } }
  else s

/-- The do-while loop of `handleCtrlBackspace` (main.go lines 233-236),
indexed by the value of `typedIndex` on loop entry: the body decrements
first, then the guard `typedIndex > 0 && sample[typedIndex-1] != ' '`
decides whether to run the body again. -/
def ctrlBackspaceLoop (sample : List Char) : Nat → Nat
  | 0 => 0
  | i + 1 => if 0 < i ∧ sample.getD (i - 1) (Char.ofNat 0) ≠ ' ' then ctrlBackspaceLoop sample i else i

/-- Go `handleCtrlBackspace` (main.go lines 231-238): the loop runs only when
`typedIndex > 0`. -/
def handleCtrlBackspace (s : Session) : Session :=
  if 0 < s.st.typedIndex then
    { s with st := { s.st with typedIndex := ctrlBackspaceLoop s.st.sample s.st.typedIndex } }
  else s

/-- Go `handleCtrlShiftBackspace` (main.go lines 240-245): the while loop
decrements `typedIndex` to exactly 0. -/
def handleCtrlShiftBackspace (s : Session) : Session :=
  { s with st := { s.st with typedIndex := 0 } }

/-- Go `handleTypo` (main.go lines 276-282): append the position unless already
present, then advance. -/
def handleTypo (s : Session) : Session :=
  if s.st.typos.contains s.st.typedIndex then
    { s with st := { s.st with typedIndex := s.st.typedIndex + 1 } }
  else
    { s with st := { s.st with
                     typos := s.st.typos ++ [s.st.typedIndex]
                     typedIndex := s.st.typedIndex + 1 } }

/-- Go `handleNewLine` (main.go lines 253-274).  When the sample expects `'\n'`
the Go body (lines 255-268) is a verbatim copy of `handleCorrectInput`'s
body, so we reuse that translation; otherwise the position is appended to
`typos` unconditionally — note the absence of the `slices.Contains` guard
that `handleTypo` has. -/
def handleNewLine (now : Nat) (s : Session) : Session :=
  if s.st.sample.getD s.st.typedIndex (Char.ofNat 0) = '\n' then
    handleCorrectInput now s
  else
    { s with st := { s.st with
                     typos := s.st.typos ++ [s.st.typedIndex]
                     typedIndex := s.st.typedIndex + 1 } }

/-- Go `handleInput` (main.go lines 187-205).  The Go `switch` tests the cases
in order, so a rune equal to `sample[typedIndex]` is a match even when it is
also a control code.  `handleCtrlC` (code 3) exits the process and changes
no session state, and code 27 (esc) is an explicit no-op case. -/
def handleInput (r : Char) (now : Nat) (s : Session) : Session :=
  if r = s.st.sample.getD s.st.typedIndex (Char.ofNat 0) then handleCorrectInput now s
  else if r.toNat = 127 then handleBackspace s
  else if r.toNat = 23 then handleCtrlBackspace s
  else if r.toNat = 8 then handleCtrlShiftBackspace s
  else if r.toNat = 3 then s
  else if r.toNat = 13 ∨ r.toNat = 10 then handleNewLine now s
  else if r.toNat = 27 then s
  else handleTypo s

/-- One iteration of the main loop (main.go lines 79-95): the loop runs only
while `typedIndex < len(sample)`; on the first processed keystroke it clears
`firstTypedChar` (and starts the ghost animation), then calls
`handleInput`.  A keystroke event is a rune together with its abstract
`time.Now()` reading. -/
def mainStep (k : Char × Nat) (s : Session) : Session :=
  if s.st.typedIndex < s.st.sample.length then
    handleInput k.1 k.2 { s with firstTypedChar := false }
  else s

/-- The main loop over a whole keystroke sequence. -/
def runKeys : List (Char × Nat) → Session → Session
  | [], s => s
  | k :: ks, s => runKeys ks (mainStep k s)

/-- Go's `utf8.RuneError`, the replacement character U+FFFD. -/
def RuneError : Char := Char.ofNat 0xFFFD

/-- Go's `utf8.DecodeRune` on a byte slice (bytes as naturals < 256):
returns the decoded rune and its size, or `(RuneError, 1)` for an invalid
or incomplete encoding, and `(RuneError, 0)` for an empty slice.  The
accept ranges for the second byte follow `unicode/utf8`'s `acceptRanges`
table (rejecting overlong forms, surrogates and values above U+10FFFF);
bit operations `b & mask` / `<<` are written with `%` and `*`. -/
def decodeRune (p : List Nat) : Char × Nat :=
  match p with
  | [] => (RuneError, 0)
  | b0 :: rest =>
    if b0 < 0x80 then (Char.ofNat b0, 1)
    else if b0 < 0xC2 then (RuneError, 1)
    else if b0 < 0xE0 then
      match rest with
      | b1 :: _ =>
        if 0x80 ≤ b1 ∧ b1 ≤ 0xBF then
          (Char.ofNat ((b0 % 0x20) * 0x40 + b1 % 0x40), 2)
        else (RuneError, 1)
      | [] => (RuneError, 1)
    else if b0 < 0xF0 then
      match rest with
      | b1 :: b2 :: _ =>
        if (if b0 = 0xE0 then 0xA0 ≤ b1 ∧ b1 ≤ 0xBF
            else if b0 = 0xED then 0x80 ≤ b1 ∧ b1 ≤ 0x9F
            else 0x80 ≤ b1 ∧ b1 ≤ 0xBF) ∧ 0x80 ≤ b2 ∧ b2 ≤ 0xBF then
          (Char.ofNat ((b0 % 0x10) * 0x1000 + (b1 % 0x40) * 0x40 + b2 % 0x40), 3)
        else (RuneError, 1)
      | _ => (RuneError, 1)
    else if b0 < 0xF5 then
      match rest with
      | b1 :: b2 :: b3 :: _ =>
        if (if b0 = 0xF0 then 0x90 ≤ b1 ∧ b1 ≤ 0xBF
            else if b0 = 0xF4 then 0x80 ≤ b1 ∧ b1 ≤ 0x8F
            else 0x80 ≤ b1 ∧ b1 ≤ 0xBF) ∧
           (0x80 ≤ b2 ∧ b2 ≤ 0xBF) ∧ (0x80 ≤ b3 ∧ b3 ≤ 0xBF) then
          (Char.ofNat ((b0 % 0x8) * 0x40000 + (b1 % 0x40) * 0x1000 + (b2 % 0x40) * 0x40 + b3 % 0x40), 4)
        else (RuneError, 1)
      | _ => (RuneError, 1)
    else (RuneError, 1)

/-- Go `readRune` (main.go lines 161-175) for one successfully read byte `b`:
append `b` to the accumulation buffer, try to decode; on
`(RuneError, 1)` — invalid or still-incomplete sequence — return the
`RuneError` rune with the buffer kept intact (the Go function returns
`utf8.RuneError` with a nil error), otherwise consume `size` bytes and
return the decoded rune.  An I/O error is impossible here because the byte
was already read. -/
def readRune (inputBuf : List Nat) (b : Nat) : Char × List Nat :=
  let buf := inputBuf ++ [b]
  let rs := decodeRune buf
  if rs.1 = RuneError ∧ rs.2 = 1 then (RuneError, buf)
  else (rs.1, buf.drop rs.2)

/-- The main loop (main.go lines 79-95) at byte granularity: while
`typedIndex < len(sample)`, read one byte, run `readRune`, and pass the
returned rune straight to `handleInput` — note that the loop does this even
when `readRune` produced the `RuneError` sentinel for a buffered incomplete
sequence.  Bytes arriving after the loop exits are left unread. -/
def runBytes : List (Nat × Nat) → List Nat × Session → List Nat × Session
  | [], bs => bs
  | (b, now) :: rest, (buf, s) =>
    if s.st.typedIndex < s.st.sample.length then
      runBytes rest ((readRune buf b).2,
        handleInput (readRune buf b).1 now { s with firstTypedChar := false })
    else (buf, s)

/-- The loop of `ghostAnimation` (main.go lines 416-432) as the trace of
events it emits: starting from timing index `i` and ghost cursor
`ghostIndex`, while `ghostIndex < sampleLen` it sleeps `charTimes[i]`
milliseconds, increments the ghost cursor by one and sends the new value on
the channel.  Each trace entry is (sleep duration, ghost cursor after the
event).  Go would panic were `i` to run past `charTimes`; `getD _ 0` only
differs from that outside the `sampleLen ≤ charTimes.length` regime the
program maintains. -/
def ghostAnimationFrom (charTimes : List Nat) (sampleLen : Nat) (i ghostIndex : Nat) :
    List (Nat × Nat) :=
  if ghostIndex < sampleLen then
    (charTimes.getD i 0, ghostIndex + 1) ::
      ghostAnimationFrom charTimes sampleLen (i + 1) (ghostIndex + 1)
  else []
termination_by sampleLen - ghostIndex

/-- Go `ghostAnimation` (main.go lines 416-432): the trace from `i = 0` and the
initial ghost cursor 0. -/
def ghostAnimation (charTimes : List Nat) (sampleLen : Nat) : List (Nat × Nat) :=
  ghostAnimationFrom charTimes sampleLen 0 0

/-- Go `startGhostAnimation` (main.go lines 177-185): the goroutine is spawned
only when `hasPb` holds; otherwise no ghost events are ever produced. -/
def startGhostAnimation (hasPb : Bool) (charTimes : List Nat) (sampleLen : Nat) :
    List (Nat × Nat) :=
  if hasPb then ghostAnimation charTimes sampleLen else []

/-- A saved sample (main.go lines 29-33), as referenced through the
package-level pointer `savedSample`. -/
structure SavedSample where
  text : String
  charTimes : List Nat
  personalBest : Nat
deriving Repr, DecidableEq

/-- The runtime failure a nil-pointer dereference produces. -/
inductive RuntimeErr where
  | nilPointerDeref
deriving Repr, DecidableEq

/-- Go's built-in `copy(dst, src)`: overwrite the first
`min (len dst) (len src)` entries of `dst` with those of `src`. -/
def goCopy (dst src : List Nat) : List Nat :=
  src.take (min dst.length src.length) ++ dst.drop (min dst.length src.length)

/-- The value of the package-level variable `savedSample` when
`updatePersonalBest` runs.  It is declared at main.go line 45 and never
assigned: the statement `savedSample := &savedSamples[0]` at main.go
line 55 uses `:=` inside `main` and therefore declares a new local variable
that shadows the global, which stays nil. -/
def savedSampleGlobal : Option SavedSample := none

/-- Go `updatePersonalBest` (main.go lines 284-300), with the dereferences of
the package-level pointer `savedSample` made explicit: each read or write
through a nil pointer is a `nilPointerDeref` panic.  Returns the `isPB`
flag and the updated saved sample. -/
def updatePersonalBest (g : Option SavedSample) (hasPb : Bool) (typos : List Nat)
    (elapsed : Nat) (currentCharTimes : List Nat) :
    Except RuntimeErr (Bool × Option SavedSample) :=
  match (if typos = [] then
           if !hasPb then
             match g with
             | none => Except.error RuntimeErr.nilPointerDeref
             | some ss => Except.ok (true, some { ss with personalBest := elapsed })
           else
             match g with
             | none => Except.error RuntimeErr.nilPointerDeref
             | some ss => Except.ok (decide (elapsed < ss.personalBest), g)
         else Except.ok (false, g) :
          Except RuntimeErr (Bool × Option SavedSample)) with
  | Except.error e => Except.error e
  | Except.ok (isPB, g1) =>
    if isPB then
      match g1 with
      | none => Except.error RuntimeErr.nilPointerDeref
      | some ss =>
        Except.ok (true, some { ss with
                                personalBest := elapsed
                                charTimes := goCopy ss.charTimes currentCharTimes })
    else Except.ok (false, g1)

/-- Go `countWords` (main.go lines 434-452) as a fold carrying `inWord` and the
count. -/
def countWordsLoop : List Char → Bool → Nat → Nat
  | [], _, n => n
  | r :: rest, inWord, n =>
    if r = ' ' ∨ r = '\n' ∨ r = '\t' then countWordsLoop rest false n
    else if inWord then countWordsLoop rest true n
    else countWordsLoop rest true (n + 1)

/-- Go `countWords` (main.go lines 434-452). -/
def countWords (sample : List Char) : Nat := countWordsLoop sample false 0

/-- The linear cell offset of the resize handler (main.go line 403 and 408):
`width*row + col`. -/
def cellNumber (width row col : Nat) : Nat := width * row + col

/-- The coordinate recomputation of `render`'s resize case (main.go lines
403-410): convert `(row, col)` to a linear offset under the old width, then
re-derive the pair under the new width by division and remainder. -/
def resizeConvert (oldW newW row col : Nat) : Nat × Nat :=
  (cellNumber oldW row col / newW, cellNumber oldW row col % newW)

/-- Modelled from the spec's words, for comparison with
`handleCtrlBackspace`: the while-loop formulation of word-erase — "while
typed-cursor > 0 and the character immediately before it is not a space,
decrement" — indexed by the current cursor value. -/
def specWordErase (sample : List Char) : Nat → Nat
  | 0 => 0
  | i + 1 => if sample.getD i (Char.ofNat 0) ≠ ' ' then specWordErase sample i else i + 1

/-- The match classification of `handleInput`: a keystroke completes the
current position via a match when it equals the sample character there, or
when it is a line terminator (CR or LF) and the sample expects `'\n'`. -/
def isMatchKey (r : Char) (s : Session) : Prop :=
  r = s.st.sample.getD s.st.typedIndex (Char.ofNat 0) ∨
    ((r.toNat = 13 ∨ r.toNat = 10) ∧ s.st.sample.getD s.st.typedIndex (Char.ofNat 0) = '\n')

instance (r : Char) (s : Session) : Decidable (isMatchKey r s) := by
  unfold isMatchKey; infer_instance

/-- The backspace-family keystrokes: backspace (127), ctrl-backspace /
word-erase (23) and ctrl-shift-backspace / full-erase (8). -/
def isBackspaceFamily (r : Char) : Prop :=
  r.toNat = 127 ∨ r.toNat = 23 ∨ r.toNat = 8

instance (r : Char) : Decidable (isBackspaceFamily r) := by
  unfold isBackspaceFamily; infer_instance

/-! ### Basic lemmas about the handlers -/

lemma deleteFirstTypo_eq_erase (typos : List Nat) (i : Nat) :
    deleteFirstTypo typos i = typos.erase i := by
  unfold deleteFirstTypo
  by_cases h : typos.contains i
  · rw [if_pos h, List.eraseIdx_indexOf_eq_erase]
  · rw [if_neg h]
    exact (List.erase_of_not_mem (by simpa using h)).symm

lemma mem_of_mem_deleteFirstTypo {typos : List Nat} {i e : Nat}
    (h : e ∈ deleteFirstTypo typos i) : e ∈ typos := by
  rw [deleteFirstTypo_eq_erase] at h
  exact List.mem_of_mem_erase h

lemma ctrlBackspaceLoop_le (sample : List Char) (i : Nat) :
    ctrlBackspaceLoop sample i ≤ i := by
  induction i with
  | zero => simp [ctrlBackspaceLoop]
  | succ j ih =>
    rw [ctrlBackspaceLoop]
    split
    · omega
    · omega

lemma handleCorrectInput_st (now : Nat) (s : Session) :
    (handleCorrectInput now s).st.sample = s.st.sample ∧
    (handleCorrectInput now s).st.ghostIndex = s.st.ghostIndex ∧
    (handleCorrectInput now s).st.typedIndex = s.st.typedIndex + 1 ∧
    (handleCorrectInput now s).st.typos = deleteFirstTypo s.st.typos s.st.typedIndex ∧
    (handleCorrectInput now s).hasPb = s.hasPb ∧
    (handleCorrectInput now s).firstTypedChar = s.firstTypedChar := by
  unfold handleCorrectInput
  by_cases h : deleteFirstTypo s.st.typos s.st.typedIndex = [] <;> simp [h]

lemma handleBackspace_st (s : Session) :
    (handleBackspace s).st.sample = s.st.sample ∧
    (handleBackspace s).st.ghostIndex = s.st.ghostIndex ∧
    (handleBackspace s).st.typedIndex ≤ s.st.typedIndex ∧
    (handleBackspace s).st.typos = s.st.typos ∧
    (handleBackspace s).currentCharTime = s.currentCharTime ∧
    (handleBackspace s).currentCharTimes = s.currentCharTimes ∧
    (handleBackspace s).hasPb = s.hasPb ∧
    (handleBackspace s).firstTypedChar = s.firstTypedChar := by
  unfold handleBackspace
  split <;> simp

lemma handleCtrlBackspace_st (s : Session) :
    (handleCtrlBackspace s).st.sample = s.st.sample ∧
    (handleCtrlBackspace s).st.ghostIndex = s.st.ghostIndex ∧
    (handleCtrlBackspace s).st.typedIndex ≤ s.st.typedIndex ∧
    (handleCtrlBackspace s).st.typos = s.st.typos ∧
    (handleCtrlBackspace s).currentCharTime = s.currentCharTime ∧
    (handleCtrlBackspace s).currentCharTimes = s.currentCharTimes ∧
    (handleCtrlBackspace s).hasPb = s.hasPb ∧
    (handleCtrlBackspace s).firstTypedChar = s.firstTypedChar := by
  unfold handleCtrlBackspace
  split <;> simp [ctrlBackspaceLoop_le]

lemma handleCtrlShiftBackspace_st (s : Session) :
    (handleCtrlShiftBackspace s).st.sample = s.st.sample ∧
    (handleCtrlShiftBackspace s).st.ghostIndex = s.st.ghostIndex ∧
    (handleCtrlShiftBackspace s).st.typedIndex = 0 ∧
    (handleCtrlShiftBackspace s).st.typos = s.st.typos ∧
    (handleCtrlShiftBackspace s).currentCharTime = s.currentCharTime ∧
    (handleCtrlShiftBackspace s).currentCharTimes = s.currentCharTimes ∧
    (handleCtrlShiftBackspace s).hasPb = s.hasPb ∧
    (handleCtrlShiftBackspace s).firstTypedChar = s.firstTypedChar := by
  unfold handleCtrlShiftBackspace
  simp

lemma handleTypo_st (s : Session) :
    (handleTypo s).st.sample = s.st.sample ∧
    (handleTypo s).st.ghostIndex = s.st.ghostIndex ∧
    (handleTypo s).st.typedIndex = s.st.typedIndex + 1 ∧
    ((handleTypo s).st.typos = s.st.typos ∨
      (handleTypo s).st.typos = s.st.typos ++ [s.st.typedIndex]) ∧
    (handleTypo s).currentCharTimes = s.currentCharTimes ∧
    (handleTypo s).hasPb = s.hasPb ∧
    (handleTypo s).firstTypedChar = s.firstTypedChar := by
  unfold handleTypo
  split <;> simp

lemma handleNewLine_st (now : Nat) (s : Session) :
    (handleNewLine now s).st.sample = s.st.sample ∧
    (handleNewLine now s).st.ghostIndex = s.st.ghostIndex ∧
    (handleNewLine now s).st.typedIndex = s.st.typedIndex + 1 ∧
    ((handleNewLine now s).st.typos = deleteFirstTypo s.st.typos s.st.typedIndex ∨
      (handleNewLine now s).st.typos = s.st.typos ++ [s.st.typedIndex]) ∧
    (handleNewLine now s).hasPb = s.hasPb ∧
    (handleNewLine now s).firstTypedChar = s.firstTypedChar := by
  unfold handleNewLine
  split
  · have h := handleCorrectInput_st now s
    exact ⟨h.1, h.2.1, h.2.2.1, Or.inl h.2.2.2.1, h.2.2.2.2.1, h.2.2.2.2.2⟩
  · simp

/-- Lemma: `handleInput` always returns the result of one of the seven actions of
the Go `switch`. -/
lemma handleInput_eq_cases (r : Char) (now : Nat) (s : Session) :
    handleInput r now s = handleCorrectInput now s ∨
    handleInput r now s = handleBackspace s ∨
    handleInput r now s = handleCtrlBackspace s ∨
    handleInput r now s = handleCtrlShiftBackspace s ∨
    handleInput r now s = handleNewLine now s ∨
    handleInput r now s = handleTypo s ∨
    handleInput r now s = s := by
  unfold handleInput
  repeat' split
  all_goals tauto

lemma handleInput_firstTypedChar (r : Char) (now : Nat) (s : Session) :
    (handleInput r now s).firstTypedChar = s.firstTypedChar := by
  rcases handleInput_eq_cases r now s with h | h | h | h | h | h | h <;>
    simp [h, handleCorrectInput_st, handleBackspace_st, handleCtrlBackspace_st,
      handleCtrlShiftBackspace_st, handleTypo_st, handleNewLine_st]

lemma handleInput_sample (r : Char) (now : Nat) (s : Session) :
    (handleInput r now s).st.sample = s.st.sample := by
  rcases handleInput_eq_cases r now s with h | h | h | h | h | h | h <;>
    simp [h, handleCorrectInput_st, handleBackspace_st, handleCtrlBackspace_st,
      handleCtrlShiftBackspace_st, handleTypo_st, handleNewLine_st]

lemma handleInput_ghostIndex (r : Char) (now : Nat) (s : Session) :
    (handleInput r now s).st.ghostIndex = s.st.ghostIndex := by
  rcases handleInput_eq_cases r now s with h | h | h | h | h | h | h <;>
    simp [h, handleCorrectInput_st, handleBackspace_st, handleCtrlBackspace_st,
      handleCtrlShiftBackspace_st, handleTypo_st, handleNewLine_st]

lemma handleInput_hasPb (r : Char) (now : Nat) (s : Session) :
    (handleInput r now s).hasPb = s.hasPb := by
  rcases handleInput_eq_cases r now s with h | h | h | h | h | h | h <;>
    simp [h, handleCorrectInput_st, handleBackspace_st, handleCtrlBackspace_st,
      handleCtrlShiftBackspace_st, handleTypo_st, handleNewLine_st]

lemma mainStep_sample (k : Char × Nat) (s : Session) :
    (mainStep k s).st.sample = s.st.sample := by
  unfold mainStep
  split
  · exact handleInput_sample k.1 k.2 _
  · rfl

lemma mainStep_ghostIndex (k : Char × Nat) (s : Session) :
    (mainStep k s).st.ghostIndex = s.st.ghostIndex := by
  unfold mainStep
  split
  · exact handleInput_ghostIndex k.1 k.2 _
  · rfl

lemma mainStep_hasPb (k : Char × Nat) (s : Session) :
    (mainStep k s).hasPb = s.hasPb := by
  unfold mainStep
  split
  · exact handleInput_hasPb k.1 k.2 _
  · rfl

lemma runKeys_sample (ks : List (Char × Nat)) (s : Session) :
    (runKeys ks s).st.sample = s.st.sample := by
  induction ks generalizing s with
  | nil => rfl
  | cons k rest ih => rw [runKeys, ih, mainStep_sample]

lemma runKeys_ghostIndex (ks : List (Char × Nat)) (s : Session) :
    (runKeys ks s).st.ghostIndex = s.st.ghostIndex := by
  induction ks generalizing s with
  | nil => rfl
  | cons k rest ih => rw [runKeys, ih, mainStep_ghostIndex]

/-- How one main-loop iteration can change the typed cursor and the typo
list: either the loop guard fails and nothing happens, or the keystroke is
processed and it is (a) an advancing keystroke — match, mismatch or line
terminator — which increments the cursor and removes the first occurrence
of the current position, appends the current position, or leaves the typo
list alone; (b) a backspace-family keystroke, which only lowers the cursor;
or (c) a no-op keystroke (ctrl-C, esc). -/
lemma mainStep_shape (k : Char × Nat) (s : Session) :
    mainStep k s = s ∨
    (s.st.typedIndex < s.st.sample.length ∧
      (((mainStep k s).st.typedIndex = s.st.typedIndex + 1 ∧
         ((mainStep k s).st.typos = deleteFirstTypo s.st.typos s.st.typedIndex ∨
          (mainStep k s).st.typos = s.st.typos ++ [s.st.typedIndex] ∨
          (mainStep k s).st.typos = s.st.typos)) ∨
       ((mainStep k s).st.typedIndex ≤ s.st.typedIndex ∧
         (mainStep k s).st.typos = s.st.typos ∧ isBackspaceFamily k.1) ∨
       ((mainStep k s).st.typedIndex = s.st.typedIndex ∧
         (mainStep k s).st.typos = s.st.typos))) := by
  unfold mainStep
  split
  case isFalse h => exact Or.inl rfl
  case isTrue h =>
    refine Or.inr ⟨h, ?_⟩
    unfold handleInput
    repeat' split
    · exact Or.inl ⟨(handleCorrectInput_st k.2 _).2.2.1,
        Or.inl (handleCorrectInput_st k.2 _).2.2.2.1⟩
    · exact Or.inr (Or.inl ⟨(handleBackspace_st _).2.2.1, (handleBackspace_st _).2.2.2.1,
        by unfold isBackspaceFamily; tauto⟩)
    · exact Or.inr (Or.inl ⟨(handleCtrlBackspace_st _).2.2.1, (handleCtrlBackspace_st _).2.2.2.1,
        by unfold isBackspaceFamily; tauto⟩)
    · refine Or.inr (Or.inl ⟨?_, (handleCtrlShiftBackspace_st _).2.2.2.1,
        by unfold isBackspaceFamily; tauto⟩)
      rw [(handleCtrlShiftBackspace_st _).2.2.1]
      exact Nat.zero_le _
    · exact Or.inr (Or.inr ⟨rfl, rfl⟩)
    · rcases (handleNewLine_st k.2 _).2.2.2.1 with ht | ht
      · exact Or.inl ⟨(handleNewLine_st k.2 _).2.2.1, Or.inl ht⟩
      · exact Or.inl ⟨(handleNewLine_st k.2 _).2.2.1, Or.inr (Or.inl ht)⟩
    · exact Or.inr (Or.inr ⟨rfl, rfl⟩)
    · rcases (handleTypo_st _).2.2.2.1 with ht | ht
      · exact Or.inl ⟨(handleTypo_st _).2.2.1, Or.inr (Or.inr ht)⟩
      · exact Or.inl ⟨(handleTypo_st _).2.2.1, Or.inr (Or.inl ht)⟩

lemma mainStep_inv (k : Char × Nat) (s : Session)
    (h1 : s.st.typedIndex ≤ s.st.sample.length)
    (h2 : ∀ e ∈ s.st.typos, e < s.st.sample.length) :
    (mainStep k s).st.typedIndex ≤ s.st.sample.length ∧
    ∀ e ∈ (mainStep k s).st.typos, e < s.st.sample.length := by
  rcases mainStep_shape k s with h | ⟨hlt, hc⟩
  · rw [h]; exact ⟨h1, h2⟩
  · constructor
    · rcases hc with ⟨hi, _⟩ | ⟨hi, _, _⟩ | ⟨hi, _⟩ <;> omega
    · rcases hc with ⟨_, ht | ht | ht⟩ | ⟨_, ht, _⟩ | ⟨_, ht⟩ <;> rw [ht]
      · exact fun e he => h2 e (mem_of_mem_deleteFirstTypo he)
      · intro e he
        rcases List.mem_append.1 he with he | he
        · exact h2 e he
        · simp only [List.mem_singleton] at he
          omega
      all_goals exact h2

lemma mainStep_typos_lt_typed (k : Char × Nat) (s : Session)
    (hk : ¬ isBackspaceFamily k.1)
    (h : ∀ e ∈ s.st.typos, e < s.st.typedIndex) :
    ∀ e ∈ (mainStep k s).st.typos, e < (mainStep k s).st.typedIndex := by
  rcases mainStep_shape k s with hs | ⟨_, hc⟩
  · rw [hs]; exact h
  · rcases hc with ⟨hi, ht | ht | ht⟩ | ⟨_, _, hb⟩ | ⟨hi, ht⟩
    · rw [hi, ht]
      exact fun e he => Nat.lt_succ_of_lt (h e (mem_of_mem_deleteFirstTypo he))
    · rw [hi, ht]
      intro e he
      rcases List.mem_append.1 he with he | he
      · exact Nat.lt_succ_of_lt (h e he)
      · simp only [List.mem_singleton] at he
        omega
    · rw [hi, ht]
      exact fun e he => Nat.lt_succ_of_lt (h e he)
    · exact absurd hb hk
    · rw [hi, ht]
      exact h

lemma mainStep_typedIndex_mono (k : Char × Nat) (s : Session)
    (hk : ¬ isBackspaceFamily k.1) :
    s.st.typedIndex ≤ (mainStep k s).st.typedIndex := by
  rcases mainStep_shape k s with hs | ⟨_, hc⟩
  · rw [hs]
  · rcases hc with ⟨hi, _⟩ | ⟨_, _, hb⟩ | ⟨hi, _⟩
    · omega
    · exact absurd hb hk
    · omega

lemma runKeys_inv (ks : List (Char × Nat)) (s : Session)
    (h1 : s.st.typedIndex ≤ s.st.sample.length)
    (h2 : ∀ e ∈ s.st.typos, e < s.st.sample.length) :
    (runKeys ks s).st.typedIndex ≤ s.st.sample.length ∧
    ∀ e ∈ (runKeys ks s).st.typos, e < s.st.sample.length := by
  induction ks generalizing s with
  | nil => exact ⟨h1, h2⟩
  | cons k rest ih =>
    rw [runKeys]
    have hstep := mainStep_inv k s h1 h2
    have := ih (mainStep k s) (by rw [mainStep_sample]; exact hstep.1)
      (by rw [mainStep_sample]; exact hstep.2)
    rwa [mainStep_sample] at this

lemma runKeys_typos_lt_typed (ks : List (Char × Nat)) (s : Session)
    (hk : ∀ k ∈ ks, ¬ isBackspaceFamily k.1)
    (h : ∀ e ∈ s.st.typos, e < s.st.typedIndex) :
    ∀ e ∈ (runKeys ks s).st.typos, e < (runKeys ks s).st.typedIndex := by
  induction ks generalizing s with
  | nil => exact h
  | cons k rest ih =>
    rw [runKeys]
    exact ih (mainStep k s) (fun k' hk' => hk k' (List.mem_cons_of_mem _ hk'))
      (mainStep_typos_lt_typed k s (hk k (List.mem_cons_self _ _)) h)

lemma mainStep_firstTyped_false (k : Char × Nat) (s : Session)
    (h : s.firstTypedChar = false) : (mainStep k s).firstTypedChar = false := by
  unfold mainStep
  split
  · rw [handleInput_firstTypedChar]
  · exact h

lemma runKeys_firstTyped_false (ks : List (Char × Nat)) (s : Session)
    (h : s.firstTypedChar = false) : (runKeys ks s).firstTypedChar = false := by
  induction ks generalizing s with
  | nil => exact h
  | cons k rest ih => exact ih (mainStep k s) (mainStep_firstTyped_false k s h)

lemma runKeys_stuck (ks : List (Char × Nat)) (s : Session)
    (h : ¬ s.st.typedIndex < s.st.sample.length) : runKeys ks s = s := by
  induction ks with
  | nil => rfl
  | cons k rest ih =>
    rw [runKeys]
    unfold mainStep
    rw [if_neg h]
    exact ih

lemma runKeys_hasPb (ks : List (Char × Nat)) (s : Session) :
    (runKeys ks s).hasPb = s.hasPb := by
  induction ks generalizing s with
  | nil => rfl
  | cons k rest ih => rw [runKeys, ih, mainStep_hasPb]

lemma handleCorrectInput_charTimes (now : Nat) (s : Session) :
    (handleCorrectInput now s).currentCharTimes =
      if deleteFirstTypo s.st.typos s.st.typedIndex = [] then
        s.currentCharTimes.set s.st.typedIndex
          (now - if s.st.typedIndex = 0 then now else s.currentCharTime)
      else s.currentCharTimes := by
  unfold handleCorrectInput
  by_cases h : deleteFirstTypo s.st.typos s.st.typedIndex = [] <;> simp [h]

lemma ctrlBackspaceLoop_eq_specWordErase (sample : List Char) (i : Nat) :
    ctrlBackspaceLoop sample (i + 1) = specWordErase sample i := by
  induction i with
  | zero => simp [ctrlBackspaceLoop, specWordErase]
  | succ j ih =>
    rw [ctrlBackspaceLoop, specWordErase]
    by_cases hc : sample.getD j (Char.ofNat 0) ≠ ' '
    · rw [if_pos ⟨Nat.succ_pos j, hc⟩, if_pos hc, ih]
    · rw [if_neg (fun hx => hc hx.2), if_neg hc]

lemma ghostAnimationFrom_spec (fuel : Nat) :
    ∀ (ct : List Nat) (n i g : Nat), n - g = fuel →
      (ghostAnimationFrom ct n i g).length = n - g ∧
      ∀ j, j < n - g →
        (ghostAnimationFrom ct n i g).getD j (0, 0) = (ct.getD (i + j) 0, g + j + 1) := by
  induction fuel with
  | zero =>
    intro ct n i g hf
    rw [ghostAnimationFrom, if_neg (by omega)]
    exact ⟨by simp; omega, fun j hj => by omega⟩
  | succ f ih =>
    intro ct n i g hf
    have hg : g < n := by omega
    rw [ghostAnimationFrom, if_pos hg]
    have hrec := ih ct n (i + 1) (g + 1) (by omega)
    constructor
    · simp [hrec.1]
      omega
    · intro j hj
      cases j with
      | zero => simp
      | succ j' =>
        rw [List.getD_cons_succ, hrec.2 j' (by omega)]
        have e1 : i + 1 + j' = i + (j' + 1) := by omega
        have e2 : g + 1 + j' + 1 = g + (j' + 1) + 1 := by omega
        rw [e1, e2]

/-! ### Claim theorems -/

/-- C1 (counterexample): the claimed invariant "every typo-set entry is
strictly less than the typed-cursor index in every reachable state" fails
on the concrete reachable state obtained on sample "ab" by typing 'x'
(mismatch, typo 0 recorded, cursor 1) and then backspace (cursor back to
0): the typo list is `[0]` while the typed cursor is `0`. -/
theorem C1_typos_lt_typed_counterexample :
    (runKeys [('x', 0), (Char.ofNat 127, 0)] (initSession "ab".toList [] 0)).st.typos = [0] ∧
    (runKeys [('x', 0), (Char.ofNat 127, 0)] (initSession "ab".toList [] 0)).st.typedIndex = 0 ∧
    ¬ (∀ e ∈ (runKeys [('x', 0), (Char.ofNat 127, 0)] (initSession "ab".toList [] 0)).st.typos,
        e < (runKeys [('x', 0), (Char.ofNat 127, 0)] (initSession "ab".toList [] 0)).st.typedIndex) := by
  decide

/-- C1 (amended): in every state reachable from the initial state by any
keystroke sequence, every typo-set entry is strictly less than the sample
length and the typed cursor never exceeds the sample length; the stronger
bound — every entry strictly less than the current typed cursor — holds for
every sequence that contains no backspace-family keystroke (a backspace can
move the cursor back below an existing entry without clearing it). -/
theorem C1_typos_bounds_amended (sample : List Char) (charTimes : List Nat)
    (ks : List (Char × Nat)) :
    (∀ e ∈ (runKeys ks (initSession sample charTimes 0)).st.typos, e < sample.length) ∧
    (runKeys ks (initSession sample charTimes 0)).st.typedIndex ≤ sample.length ∧
    ((∀ k ∈ ks, ¬ isBackspaceFamily k.1) →
      ∀ e ∈ (runKeys ks (initSession sample charTimes 0)).st.typos,
        e < (runKeys ks (initSession sample charTimes 0)).st.typedIndex) := by
  have h := runKeys_inv ks (initSession sample charTimes 0)
    (Nat.zero_le _) (fun e he => absurd he (List.not_mem_nil e))
  exact ⟨h.2, h.1, fun hk => runKeys_typos_lt_typed ks (initSession sample charTimes 0) hk
    (fun e he => absurd he (List.not_mem_nil e))⟩

/-- Witness for C1: on sample "ab" with the single non-backspace keystroke
'a', the amended invariant instantiates and its conditional part applies. -/
theorem C1_typos_bounds_amended_witness :
    (runKeys [('a', 0)] (initSession "ab".toList [] 0)).st.typedIndex ≤ "ab".toList.length ∧
    (∀ e ∈ (runKeys [('a', 0)] (initSession "ab".toList [] 0)).st.typos,
      e < (runKeys [('a', 0)] (initSession "ab".toList [] 0)).st.typedIndex) :=
  ⟨(C1_typos_bounds_amended "ab".toList [] [('a', 0)]).2.1,
   (C1_typos_bounds_amended "ab".toList [] [('a', 0)]).2.2 (by decide)⟩

/-- C2: from the initial state, the typed cursor never exceeds the sample
length under any keystroke sequence, and a main-loop step on any keystroke
outside the backspace family (backspace 127, word-erase 23, full-erase 8)
never decreases the typed cursor, in any state. -/
theorem C2_typedIndex_bounds (sample : List Char) (charTimes : List Nat)
    (ks : List (Char × Nat)) :
    (runKeys ks (initSession sample charTimes 0)).st.typedIndex ≤ sample.length ∧
    ∀ (s : Session) (k : Char × Nat), ¬ isBackspaceFamily k.1 →
      s.st.typedIndex ≤ (mainStep k s).st.typedIndex :=
  ⟨(runKeys_inv ks (initSession sample charTimes 0) (Nat.zero_le _)
      (fun e he => absurd he (List.not_mem_nil e))).1,
   fun s k hk => mainStep_typedIndex_mono k s hk⟩

/-- Witness for C2: instantiated on sample "ab" and the mismatching (but
non-backspace) keystroke 'x' at the initial state. -/
theorem C2_typedIndex_bounds_witness :
    (runKeys [('a', 0)] (initSession "ab".toList [] 0)).st.typedIndex ≤ "ab".toList.length ∧
    (initSession "ab".toList [] 0).st.typedIndex ≤
      (mainStep ('x', 0) (initSession "ab".toList [] 0)).st.typedIndex :=
  ⟨(C2_typedIndex_bounds "ab".toList [] [('a', 0)]).1,
   (C2_typedIndex_bounds "ab".toList [] [('a', 0)]).2 (initSession "ab".toList [] 0) ('x', 0)
     (by decide)⟩

/-- C3 (code bug, evaluation): on sample "ab", after 'x' (typo at 0),
backspace, Enter (the line-terminator mismatch path of `handleNewLine`
appends position 0 again without the `slices.Contains` guard that
`handleTypo` uses, giving the duplicate list `[0, 0]`), and backspace,
typing the expected character 'a' at position 0 — a position currently in
the typo set — removes only one occurrence: the typo list is still `[0]`,
so the entry was not removed as the claim requires. -/
theorem C3_self_correction_duplicate_eval :
    (runKeys [('x', 0), (Char.ofNat 127, 0), (Char.ofNat 13, 0), (Char.ofNat 127, 0)]
        (initSession "ab".toList [] 0)).st.typos = [0, 0] ∧
    (runKeys [('x', 0), (Char.ofNat 127, 0), (Char.ofNat 13, 0), (Char.ofNat 127, 0), ('a', 0)]
        (initSession "ab".toList [] 0)).st.typos = [0] ∧
    (runKeys [('x', 0), (Char.ofNat 127, 0), (Char.ofNat 13, 0), (Char.ofNat 127, 0), ('a', 0)]
        (initSession "ab".toList [] 0)).st.typedIndex = 1 ∧
    (runKeys [('x', 0), (Char.ofNat 127, 0), ('a', 0)]
        (initSession "ab".toList [] 0)).st.typos = [] ∧
    (runKeys [('x', 0), (Char.ofNat 127, 0), ('a', 0)]
        (initSession "ab".toList [] 0)).st.typedIndex = 1 := by
  decide

/-- C4 (counterexample): the claim says word-erase is the plain while loop
and in particular does not move the cursor when the character immediately
before it is a space.  On the reachable state with sample "a b" and typed
cursor 2 (after typing 'a' and ' '), the character before the cursor is the
space at index 1: the spec's while loop keeps the cursor at 2, but the
code's do-while loop decrements to 1 and then continues past 'a' down
to 0. -/
theorem C4_word_erase_counterexample :
    (runKeys [('a', 0), (' ', 0), (Char.ofNat 23, 0)]
        (initSession "a b".toList [] 0)).st.typedIndex = 0 ∧
    specWordErase "a b".toList 2 = 2 := by
  decide

/-- C4 (amended): word-erase has no effect at cursor 0; otherwise it first
decrements once unconditionally (a do-while, so a cursor sitting just after
a space does move) and then runs exactly the spec's loop "while cursor > 0
and the character immediately before it is not a space, decrement". -/
theorem C4_word_erase_amended (s : Session) :
    (handleCtrlBackspace s).st.typedIndex =
      if s.st.typedIndex = 0 then 0
      else specWordErase s.st.sample (s.st.typedIndex - 1) := by
  unfold handleCtrlBackspace
  by_cases h : 0 < s.st.typedIndex
  · rw [if_pos h, if_neg (by omega)]
    show ctrlBackspaceLoop s.st.sample s.st.typedIndex = _
    obtain ⟨i, hi⟩ : ∃ i, s.st.typedIndex = i + 1 := ⟨s.st.typedIndex - 1, by omega⟩
    rw [hi, ctrlBackspaceLoop_eq_specWordErase]
    congr 1
  · rw [if_neg h, if_pos (by omega)]
    omega

/-- C5 (code bug, evaluation): sending the single byte 0xC3 — the first
byte of the two-byte UTF-8 encoding of 'á' — leaves the byte buffered for
the next read (and `readRune` reports no error), but the main loop still
passes the `RuneError` sentinel to `handleInput`, which classifies it as a
mismatch: the typed cursor advances to 1 and position 0 is recorded as a
typo before any complete character exists.  Sending the completing byte
0xA1 afterwards consumes a second sample position. -/
theorem C5_partial_byte_mutates_state :
    (runBytes [(0xC3, 0)] ([], initSession "ab".toList [] 0)).1 = [0xC3] ∧
    (runBytes [(0xC3, 0)] ([], initSession "ab".toList [] 0)).2.st.typedIndex = 1 ∧
    (runBytes [(0xC3, 0)] ([], initSession "ab".toList [] 0)).2.st.typos = [0] ∧
    (runBytes [(0xC3, 0), (0xA1, 0)] ([], initSession "ab".toList [] 0)).2.st.typedIndex = 2 := by
  decide

/-- C6: `handleInput` writes a duration into the timing buffer at the
current position exactly when the keystroke completes that position via a
match (either the expected character, or CR/LF when the sample expects a
newline) and the typo set is empty at that instant (after the match's own
self-correction removal); every other keystroke leaves the buffer
untouched. -/
theorem C6_timing_write_iff (s : Session) (r : Char) (now : Nat)
    (h : s.st.typedIndex < s.st.sample.length) :
    (handleInput r now s).currentCharTimes =
      if isMatchKey r s ∧ (handleInput r now s).st.typos = [] then
        s.currentCharTimes.set s.st.typedIndex
          (now - if s.st.typedIndex = 0 then now else s.currentCharTime)
      else s.currentCharTimes := by
  by_cases h1 : r = s.st.sample.getD s.st.typedIndex (Char.ofNat 0)
  · have hI : handleInput r now s = handleCorrectInput now s := by
      unfold handleInput
      rw [if_pos h1]
    have hm : isMatchKey r s := Or.inl h1
    rw [hI, handleCorrectInput_charTimes, (handleCorrectInput_st now s).2.2.2.1]
    by_cases h2 : deleteFirstTypo s.st.typos s.st.typedIndex = []
    · rw [if_pos h2, if_pos (And.intro hm h2)]
    · rw [if_neg h2, if_neg (fun hc => h2 hc.2)]
  · by_cases h6 : r.toNat = 13 ∨ r.toNat = 10
    · have hI : handleInput r now s = handleNewLine now s := by
        unfold handleInput
        rw [if_neg h1, if_neg (by omega), if_neg (by omega), if_neg (by omega),
          if_neg (by omega), if_pos h6]
      rw [hI]
      by_cases hn : s.st.sample.getD s.st.typedIndex (Char.ofNat 0) = '\n'
      · have hJ : handleNewLine now s = handleCorrectInput now s := by
          unfold handleNewLine
          rw [if_pos hn]
        have hm : isMatchKey r s := Or.inr ⟨h6, hn⟩
        rw [hJ, handleCorrectInput_charTimes, (handleCorrectInput_st now s).2.2.2.1]
        by_cases h2 : deleteFirstTypo s.st.typos s.st.typedIndex = []
        · rw [if_pos h2, if_pos (And.intro hm h2)]
        · rw [if_neg h2, if_neg (fun hc => h2 hc.2)]
      · have hnm : ¬ isMatchKey r s := by
          rintro (hx | ⟨_, hx⟩)
          · exact h1 hx
          · exact hn hx
        rw [if_neg (fun hc => hnm hc.1)]
        unfold handleNewLine
        rw [if_neg hn]
    · have hnm : ¬ isMatchKey r s := by
        rintro (hx | ⟨hx, _⟩)
        · exact h1 hx
        · exact h6 hx
      rw [if_neg (fun hc => hnm hc.1)]
      unfold handleInput
      rw [if_neg h1]
      by_cases hb1 : r.toNat = 127
      · rw [if_pos hb1]
        exact (handleBackspace_st s).2.2.2.2.2.1
      rw [if_neg hb1]
      by_cases hb2 : r.toNat = 23
      · rw [if_pos hb2]
        exact (handleCtrlBackspace_st s).2.2.2.2.2.1
      rw [if_neg hb2]
      by_cases hb3 : r.toNat = 8
      · rw [if_pos hb3]
        exact (handleCtrlShiftBackspace_st s).2.2.2.2.2.1
      rw [if_neg hb3]
      by_cases hb4 : r.toNat = 3
      · rw [if_pos hb4]
      rw [if_neg hb4, if_neg h6]
      by_cases hb5 : r.toNat = 27
      · rw [if_pos hb5]
      rw [if_neg hb5]
      exact (handleTypo_st s).2.2.2.2.1

/-- Witness for C6: on sample "ab" at the initial state, the matching
keystroke 'a' at time 7 instantiates the timing-write equation. -/
theorem C6_timing_write_iff_witness :
    (initSession "ab".toList [] 0).st.typedIndex <
      (initSession "ab".toList [] 0).st.sample.length ∧
    (handleInput 'a' 7 (initSession "ab".toList [] 0)).currentCharTimes =
      (if isMatchKey 'a' (initSession "ab".toList [] 0) ∧
          (handleInput 'a' 7 (initSession "ab".toList [] 0)).st.typos = [] then
        (initSession "ab".toList [] 0).currentCharTimes.set
          (initSession "ab".toList [] 0).st.typedIndex
          (7 - if (initSession "ab".toList [] 0).st.typedIndex = 0 then 7
               else (initSession "ab".toList [] 0).currentCharTime)
      else (initSession "ab".toList [] 0).currentCharTimes) :=
  ⟨by decide, C6_timing_write_iff (initSession "ab".toList [] 0) 'a' 7 (by decide)⟩

/-- C7 (code bug, evaluation): completing sample "abc" with no prior best by
typing 'a','b','c' correctly does end with an empty typo list, typed cursor
3 and word count 1 — but the session-end call `updatePersonalBest` then
dereferences the package-level `savedSample` pointer, which is still nil
because `savedSample := &savedSamples[0]` at main.go line 55 declares a new
local that shadows the global declared at line 45: the program panics
instead of flagging the personal best.  The final conjunct shows the
function's own logic does flag a new personal best and copies the recorded
timings once it is given a non-nil pointer. -/
theorem C7_personal_best_nil_deref_eval :
    (runKeys [('a', 1), ('b', 2), ('c', 3)] (initSession "abc".toList [] 0)).st.typos = [] ∧
    (runKeys [('a', 1), ('b', 2), ('c', 3)] (initSession "abc".toList [] 0)).st.typedIndex = 3 ∧
    countWords "abc".toList = 1 ∧
    updatePersonalBest savedSampleGlobal
        (runKeys [('a', 1), ('b', 2), ('c', 3)] (initSession "abc".toList [] 0)).hasPb
        (runKeys [('a', 1), ('b', 2), ('c', 3)] (initSession "abc".toList [] 0)).st.typos 5
        (runKeys [('a', 1), ('b', 2), ('c', 3)] (initSession "abc".toList [] 0)).currentCharTimes
      = Except.error RuntimeErr.nilPointerDeref ∧
    updatePersonalBest (some { text := "abc", charTimes := [0, 0, 0], personalBest := 0 })
        false [] 5 [0, 1, 1]
      = Except.ok (true, some { text := "abc", charTimes := [0, 1, 1], personalBest := 5 }) :=
  ⟨by decide, by decide, by decide, rfl, rfl⟩

/-- C8: converting a (row, column) with column < W1 to the linear cell
offset under width W1 and re-deriving the pair under width W2 > 0 preserves
the offset: converting the re-derived pair back under W2 gives the direct
offset again; in particular resizing from width 80 to width 40 with the
cursor at row 0, column 75 gives row 1, column 35. -/
theorem C8_resize_offset_roundtrip (w1 w2 row col : Nat)
    (hw1 : 0 < w1) (hw2 : 0 < w2) (hc : col < w1) :
    cellNumber w2 (resizeConvert w1 w2 row col).1 (resizeConvert w1 w2 row col).2 =
      cellNumber w1 row col ∧
    resizeConvert 80 40 0 75 = (1, 35) := by
  constructor
  · unfold cellNumber resizeConvert
    exact Nat.div_add_mod _ _
  · decide

/-- Witness for C8: the scenario instance, widths 80 → 40, cursor at
row 0, column 75. -/
theorem C8_resize_offset_roundtrip_witness :
    0 < 80 ∧ 0 < 40 ∧ 75 < 80 ∧
    (cellNumber 40 (resizeConvert 80 40 0 75).1 (resizeConvert 80 40 0 75).2 =
        cellNumber 80 0 75 ∧
      resizeConvert 80 40 0 75 = (1, 35)) :=
  ⟨by decide, by decide, by decide,
   C8_resize_offset_roundtrip 80 40 0 75 (by decide) (by decide) (by decide)⟩

/-- C9: the replay scheduler is running (the first-keystroke flag has been
cleared and `hasPb` holds) exactly when `RecordedTiming` is non-empty and at
least one keystroke was processed (which requires a non-empty sample); with
empty `RecordedTiming` it emits no events and the ghost cursor stays 0; and
when it runs over timings covering the sample, its event trace consumes the
recorded durations in order, the j-th event sleeping `charTimes[j]` and
moving the ghost cursor to exactly j + 1, stopping after the event that
reaches the sample length. -/
theorem C9_ghost_scheduler (sample : List Char) (charTimes : List Nat)
    (ks : List (Char × Nat)) :
    (((runKeys ks (initSession sample charTimes 0)).firstTypedChar = false ∧
        (runKeys ks (initSession sample charTimes 0)).hasPb = true) ↔
      (charTimes ≠ [] ∧ ks ≠ [] ∧ sample ≠ [])) ∧
    (charTimes = [] →
      startGhostAnimation (!charTimes.isEmpty) charTimes sample.length = [] ∧
      (runKeys ks (initSession sample charTimes 0)).st.ghostIndex = 0) ∧
    (sample.length ≤ charTimes.length →
      (startGhostAnimation (!charTimes.isEmpty) charTimes sample.length).length =
        sample.length ∧
      ∀ j, j < sample.length →
        (startGhostAnimation (!charTimes.isEmpty) charTimes sample.length).getD j (0, 0) =
          (charTimes.getD j 0, j + 1)) := by
  refine ⟨⟨?_, ?_⟩, ?_, ?_⟩
  · rintro ⟨hf, hp⟩
    refine ⟨?_, ?_, ?_⟩
    · rw [runKeys_hasPb] at hp
      simpa [initSession, List.isEmpty_iff] using hp
    · rintro rfl
      rw [runKeys] at hf
      simp [initSession] at hf
    · rintro rfl
      rw [runKeys_stuck ks _ (by simp [initSession])] at hf
      simp [initSession] at hf
  · rintro ⟨hct, hks, hsm⟩
    cases ks with
    | nil => exact absurd rfl hks
    | cons k rest =>
      constructor
      · rw [runKeys]
        apply runKeys_firstTyped_false
        unfold mainStep
        rw [if_pos (by simpa [initSession] using List.length_pos.2 hsm)]
        rw [handleInput_firstTypedChar]
      · rw [runKeys_hasPb]
        simp [initSession, List.isEmpty_iff, hct]
  · intro hct
    subst hct
    refine ⟨rfl, ?_⟩
    rw [runKeys_ghostIndex]
    rfl
  · intro hlen
    by_cases hct : charTimes = []
    · subst hct
      have h0 : sample.length = 0 := by simpa using hlen
      rw [h0]
      exact ⟨rfl, fun j hj => absurd hj (by omega)⟩
    · have hb : (!charTimes.isEmpty) = true := by simp [List.isEmpty_iff, hct]
      rw [hb]
      unfold startGhostAnimation ghostAnimation
      rw [if_pos rfl]
      have h := ghostAnimationFrom_spec (sample.length - 0) charTimes sample.length 0 0 rfl
      constructor
      · simpa using h.1
      · intro j hj
        have hg := h.2 j (by omega)
        simpa using hg

/-- Witness for C9: sample "abc" with recorded timings [100, 150, 200] and
one typed keystroke: the scheduler is running, and its trace is exactly
three events sleeping 100, 150 and 200 ms and moving the ghost cursor to 1,
2 and 3. -/
theorem C9_ghost_scheduler_witness :
    ((runKeys [('a', 1)] (initSession "abc".toList [100, 150, 200] 0)).firstTypedChar = false ∧
      (runKeys [('a', 1)] (initSession "abc".toList [100, 150, 200] 0)).hasPb = true) ∧
    (startGhostAnimation (!List.isEmpty [100, 150, 200]) [100, 150, 200]
        "abc".toList.length).length = "abc".toList.length ∧
    (startGhostAnimation (!List.isEmpty [100, 150, 200]) [100, 150, 200]
        "abc".toList.length).getD 1 (0, 0) = ([100, 150, 200].getD 1 0, 1 + 1) :=
  ⟨(C9_ghost_scheduler "abc".toList [100, 150, 200] [('a', 1)]).1.mpr
      (by refine ⟨by decide, by decide, by decide⟩),
   ((C9_ghost_scheduler "abc".toList [100, 150, 200] [('a', 1)]).2.2 (by decide)).1,
   ((C9_ghost_scheduler "abc".toList [100, 150, 200] [('a', 1)]).2.2 (by decide)).2 1 (by decide)⟩

/-- C10: the three backspace-family handlers change only the typed cursor:
each leaves the typo list, the ghost cursor, the sample and the timing
buffer exactly as they were (so in particular erasing back over a
mismatched position does not clear its typo entry). -/
theorem C10_backspace_frame (s : Session) :
    ((handleBackspace s).st.typos = s.st.typos ∧
      (handleBackspace s).st.ghostIndex = s.st.ghostIndex ∧
      (handleBackspace s).st.sample = s.st.sample ∧
      (handleBackspace s).currentCharTimes = s.currentCharTimes) ∧
    ((handleCtrlBackspace s).st.typos = s.st.typos ∧
      (handleCtrlBackspace s).st.ghostIndex = s.st.ghostIndex ∧
      (handleCtrlBackspace s).st.sample = s.st.sample ∧
      (handleCtrlBackspace s).currentCharTimes = s.currentCharTimes) ∧
    ((handleCtrlShiftBackspace s).st.typos = s.st.typos ∧
      (handleCtrlShiftBackspace s).st.ghostIndex = s.st.ghostIndex ∧
      (handleCtrlShiftBackspace s).st.sample = s.st.sample ∧
      (handleCtrlShiftBackspace s).currentCharTimes = s.currentCharTimes) :=
  ⟨⟨(handleBackspace_st s).2.2.2.1, (handleBackspace_st s).2.1, (handleBackspace_st s).1,
    (handleBackspace_st s).2.2.2.2.2.1⟩,
   ⟨(handleCtrlBackspace_st s).2.2.2.1, (handleCtrlBackspace_st s).2.1,
    (handleCtrlBackspace_st s).1, (handleCtrlBackspace_st s).2.2.2.2.2.1⟩,
   ⟨(handleCtrlShiftBackspace_st s).2.2.2.1, (handleCtrlShiftBackspace_st s).2.1,
    (handleCtrlShiftBackspace_st s).1, (handleCtrlShiftBackspace_st s).2.2.2.2.2.1⟩⟩

end TypingTest
